import Mathlib

/-!
Verification development for the location-weather-lookup repository.

The definitions below are a shallow embedding of the address-search core:

* the query normalizer `buildSmartQuery` (src/services/weather.js, geocoding part),
* the haversine distance `getDistance` (modelled over the real numbers),
* the result filter and proximity ranking of `searchAddresses`,
* the `AddressSearch` session state machine
  (src/components/address-search/address-search.js).

JavaScript numbers are modelled as elements of a linearly ordered field
(instantiated at `ℚ` for executable checks and at `ℝ` for the haversine);
JavaScript string truthiness is modelled explicitly (`truthy`, `locationTruthy`).
-/

/-! ## Query normalizer: `buildSmartQuery`

The source chain is
`input.replace(/,/g,' ').replace(/\s+/g,' ').trim().toLowerCase()`,
then `split(/\s+/)`, then a per-word classification loop, then `join(' ')`.
-/

/-- ASCII whitespace recognised by the JavaScript `\s` class (the Unicode
space characters never occur in the inputs considered here). -/
def isJsWhitespace (c : Char) : Bool :=
  c == ' ' || c == '\t' || c == '\n' || c == '\r' || c == '\x0b' || c == '\x0c'

/-- `input.replace(/,/g, ' ')`. -/
def replaceCommas (s : List Char) : List Char :=
  s.map (fun c => if c == ',' then ' ' else c)

/-- Worker for `replace(/\s+/g, ' ')`: the flag records whether the previous
character belonged to a whitespace run already replaced. -/
def collapseWsAux : Bool → List Char → List Char
  | _, [] => []
  | inWs, c :: rest =>
    if isJsWhitespace c then
      if inWs then collapseWsAux true rest
      else ' ' :: collapseWsAux true rest
    else c :: collapseWsAux false rest

/-- `input.replace(/\s+/g, ' ')`. -/
def collapseWs (s : List Char) : List Char :=
  collapseWsAux false s

/-- `String.prototype.trim()` restricted to the whitespace set above. -/
def jsTrim (s : List Char) : List Char :=
  ((s.dropWhile isJsWhitespace).reverse.dropWhile isJsWhitespace).reverse

/-- Splitting on single whitespace characters.  On the collapsed, trimmed
strings produced above this agrees with the source's `split(/\s+/)`; on other
strings the two differ only by empty tokens, which the word loop discards
(`if (!word) return`). -/
def splitTokens : List Char → List Char → List (List Char)
  | [], cur => [cur.reverse]
  | c :: rest, cur =>
    if isJsWhitespace c then cur.reverse :: splitTokens rest []
    else splitTokens rest (c :: cur)

/-- The JavaScript word-character class `\w`, i.e. `[A-Za-z0-9_]`. -/
def isWordChar (c : Char) : Bool :=
  (decide ('a' ≤ c) && decide (c ≤ 'z')) || (decide ('A' ≤ c) && decide (c ≤ 'Z')) ||
    (decide ('0' ≤ c) && decide (c ≤ '9')) || c == '_'

/-- The JavaScript digit class `\d`. -/
def isDigitChar (c : Char) : Bool :=
  decide ('0' ≤ c) && decide (c ≤ '9')

/-- The character class `[a-zA-Z]`. -/
def isAsciiLetter (c : Char) : Bool :=
  (decide ('a' ≤ c) && decide (c ≤ 'z')) || (decide ('A' ≤ c) && decide (c ≤ 'Z'))

/-- The `directionAbbreviations` object literal from the source. -/
def directionAbbreviations : List (String × String) :=
  [("n", "north"), ("s", "south"), ("e", "east"), ("w", "west"),
   ("ne", "northeast"), ("nw", "northwest"), ("se", "southeast"), ("sw", "southwest")]

/-- The `streetTypeAbbreviations` object literal from the source. -/
def streetTypeAbbreviations : List (String × String) :=
  [("st", "street"), ("ave", "avenue"), ("av", "avenue"), ("blvd", "boulevard"),
   ("dr", "drive"), ("rd", "road"), ("ln", "lane"), ("ct", "court"), ("cir", "circle"),
   ("pl", "place"), ("pkwy", "parkway"), ("hwy", "highway"), ("sq", "square"),
   ("ter", "terrace"), ("trl", "trail"), ("way", "way")]

/-- Own-property lookup on an object literal used as a string map. -/
def ownProperty (m : List (String × String)) (k : String) : Option String :=
  (m.find? (fun kv => kv.1 == k)).map (fun kv => kv.2)

/-- The `Object.prototype` properties a lowercased `\w`-token can name when
an object literal is indexed with it: of the prototype's property keys only
`constructor` and `__proto__` consist of word characters without an
uppercase letter (the others — `toString`, `hasOwnProperty`, `valueOf`,
`isPrototypeOf`, `propertyIsEnumerable`, `toLocaleString`, the
getter/setter pairs — are camelCase and unreachable from lowercased input).
Both inherited values are truthy, and the table records the text each one
contributes when `join` string-coerces it: reading `__proto__` yields
`Object.prototype`, whose coercion is the ECMA-mandated
`"[object Object]"`; reading `constructor` yields the `Object` function,
whose coercion is an implementation-formatted NativeFunction string — one
admissible spelling is fixed here, and no theorem depends on its exact
text. -/
def objectPrototypeProps : List (String × String) :=
  [("constructor", "function Object() \x7b [native code] \x7d"),
   ("__proto__", "[object Object]")]

/-- The JavaScript property read `m[cleanWord]` on an object literal:
the own property when present, otherwise the prototype chain. -/
def lookupAbbrev (m : List (String × String)) (k : String) : Option String :=
  match ownProperty m k with
  | some v => some v
  | none => ownProperty objectPrototypeProps k

/-- The body of the `words.forEach` loop: returns `none` when the word is
dropped, and `some w` when `w` is pushed onto `expandedWords`. -/
def processWord (word : List Char) : Option String :=
  if word.isEmpty then none
  else
    let cleanWord := word.filter isWordChar
    if cleanWord.isEmpty then none
    else if cleanWord.all isDigitChar then some (String.mk cleanWord)
    else
      match lookupAbbrev directionAbbreviations (String.mk cleanWord) with
      | some full => some full
      | none =>
        match lookupAbbrev streetTypeAbbreviations (String.mk cleanWord) with
        | some full => some full
        | none =>
          if cleanWord.all isAsciiLetter && decide (2 ≤ cleanWord.length) &&
              decide (cleanWord.length ≤ 4) then
            some (String.mk cleanWord ++ "*")
          else some (String.mk cleanWord)

/-- `buildSmartQuery` from src/services/weather.js (geocoding part). -/
def buildSmartQuery (input : String) : String :=
  let normalized := (jsTrim (collapseWs (replaceCommas input.data))).map Char.toLower
  let words := splitTokens normalized []
  String.intercalate " " (words.filterMap processWord)

/-! ## Distance calculator: `getDistance`

The source computes the haversine distance with JavaScript floating-point
arithmetic; it is modelled here over the real numbers.  `Math.atan2 y x` is
the argument of the complex number `x + y i`.
-/

/-- `Math.atan2` modelled as the complex argument. -/
noncomputable def atan2 (y x : ℝ) : ℝ :=
  Complex.arg (Complex.ofReal x + Complex.ofReal y * Complex.I)

/-- `getDistance` from src/services/weather.js (geocoding part): haversine
distance in kilometres with Earth radius 6371. -/
noncomputable def getDistance (lat1 lon1 lat2 lon2 : ℝ) : ℝ :=
  let R : ℝ := 6371
  let dLat := (lat2 - lat1) * Real.pi / 180
  let dLon := (lon2 - lon1) * Real.pi / 180
  let a := Real.sin (dLat / 2) * Real.sin (dLat / 2) +
    Real.cos (lat1 * Real.pi / 180) * Real.cos (lat2 * Real.pi / 180) *
      (Real.sin (dLon / 2) * Real.sin (dLon / 2))
  let c := 2 * atan2 (Real.sqrt a) (Real.sqrt (1 - a))
  R * c

/-! ## Result filter and ranking: `searchAddresses`

`searchAddresses` builds the request, fetches, filters the raw Nominatim
records and (when the user location is truthy) annotates each survivor with
a distance and sorts by it.  The fetch itself is external; the model takes
the parsed response `data` as input.  `place.lat`/`place.lon` arrive as
strings and are used through `parseFloat`; the model carries the parsed
numeric values.  JavaScript's `Array.prototype.sort` is stable (ES2019),
which `List.insertionSort` reproduces.
-/

/-- Truthiness of an optional string-valued address field: absent fields and
empty strings are falsy. -/
def truthy : Option String → Bool
  | none => false
  | some s => !(s == "")

/-- The structured `address` object of a Nominatim record (only the fields
the filter and the display code read). -/
structure NominatimAddress where
  house_number : Option String := none
  road : Option String := none
  building : Option String := none
  amenity : Option String := none
  shop : Option String := none
  office : Option String := none
deriving DecidableEq, Repr

/-- One raw hit from the address provider, after numeric parsing of
`lat`/`lon`.  `distance` is absent until the ranking step fills it in. -/
structure Place (α : Type) where
  display_name : String := ""
  lat : α
  lon : α
  type : String
  address : Option NominatimAddress
  distance : Option α := none
deriving DecidableEq, Repr

/-- The `excludeTypes` array from the source. -/
def excludeTypes : List String :=
  ["administrative", "state", "country", "city", "county", "region"]

/-- The predicate of `data.filter(place => ...)` in `searchAddresses`. -/
def validAddress {α : Type} (p : Place α) : Bool :=
  match p.address with
  | none => false
  | some addr =>
    if excludeTypes.contains p.type then false
    else
      truthy addr.road ||
        (truthy addr.building || truthy addr.amenity || truthy addr.shop ||
          truthy addr.office || truthy addr.house_number)

/-- The user location object handed to `searchAddresses` (IP geolocation
result or `null`). -/
structure UserLocation (α : Type) where
  latitude : α
  longitude : α
deriving DecidableEq, Repr

/-- The repeated guard `userLocation && userLocation.latitude &&
userLocation.longitude`: a JavaScript number is falsy exactly when it is `0`
(or `NaN`, which has no counterpart in this model). -/
def locationTruthy {α : Type} [Zero α] [DecidableEq α] :
    Option (UserLocation α) → Bool
  | none => false
  | some u => if u.latitude = 0 then false else if u.longitude = 0 then false else true

/-- Whether the request URL receives the `&viewbox=...&bounded=0` suffix
(source line `if (userLocation && userLocation.latitude && ...)`). -/
def requestHasViewbox {α : Type} [Zero α] [DecidableEq α]
    (userLocation : Option (UserLocation α)) : Bool :=
  locationTruthy userLocation

/-- `place.distance = getDistance(userLocation.latitude, userLocation.longitude,
parseFloat(place.lat), parseFloat(place.lon))`. -/
def annotate {α : Type} (dist : α → α → α → α → α) (u : UserLocation α)
    (p : Place α) : Place α :=
  { p with distance := some (dist u.latitude u.longitude p.lat p.lon) }

/-- The sort key read by the comparator `(a, b) => a.distance - b.distance`;
every element being sorted has just been annotated, so the default is
irrelevant. -/
def distKey {α : Type} [Zero α] (p : Place α) : α :=
  p.distance.getD 0

/-- Comparison by key, the relation under the stable sort. -/
def keyLE {β γ : Type} [LinearOrder γ] (key : β → γ) (a b : β) : Prop :=
  key a ≤ key b

instance {β γ : Type} [LinearOrder γ] (key : β → γ) : DecidableRel (keyLE key) :=
  fun a b => inferInstanceAs (Decidable (key a ≤ key b))

instance {β γ : Type} [LinearOrder γ] (key : β → γ) : IsTotal β (keyLE key) :=
  ⟨fun a b => le_total (key a) (key b)⟩

instance {β γ : Type} [LinearOrder γ] (key : β → γ) : IsTrans β (keyLE key) :=
  ⟨fun _ _ _ hab hbc => le_trans hab hbc⟩

/-- The post-fetch body of `searchAddresses`: filter, then (for a truthy
user location) annotate with distances and sort by them. -/
def searchAddressesModel {α : Type} [LinearOrder α] [Zero α]
    (dist : α → α → α → α → α) (data : List (Place α))
    (userLocation : Option (UserLocation α)) : List (Place α) :=
  let validAddresses := data.filter validAddress
  match userLocation with
  | none => validAddresses
  | some u =>
    if locationTruthy (some u) then
      (validAddresses.map (annotate dist u)).insertionSort (keyLE distKey)
    else validAddresses

/-! ## Address search orchestrator: the `AddressSearch` session

State machine for src/components/address-search/address-search.js.  The
component's mutable fields (`searchTimeout`, `currentSearchRequest`,
`isLocationSelected`, the status icon class and the suggestion list) form
the `Session`; the surrounding `World` additionally tracks which debounce
timers are pending and which lookup requests have an unfinished
continuation, so that "at most one live timer / request" is a provable
property rather than a typing artifact.  Timers and requests are named by
freshly allocated numeric ids.  Results are abstract values of a type `ρ`.

Event handlers return the new world together with the list of observable
effects, in program order: DOM timer calls, `AbortController.abort()`, the
`searchAddresses` call, rendering, and the `onAutocompleteResults` /
`onAddressSelect` / `console.error` sinks.
-/

/-- The `statusIcon.className` values: `'search-status'`,
`'search-status loading'`, `'search-status success'`. -/
inductive SearchStatus
  | idle
  | loading
  | success
deriving DecidableEq, Repr

/-- The component's own mutable fields. -/
structure Session (ρ : Type) where
  searchTimeout : Option Nat
  currentSearchRequest : Option Nat
  isLocationSelected : Bool
  status : SearchStatus
  suggestions : List ρ
deriving DecidableEq, Repr

/-- A session plus the bookkeeping of live timers (with the input value each
debounce closure captured) and of requests whose callback has not yet run or
that have been aborted. -/
structure World (ρ : Type) where
  session : Session ρ
  liveTimers : List (Nat × String)
  pendingReqs : List Nat
  abortedReqs : List Nat
  nextId : Nat
deriving DecidableEq, Repr

/-- Observable actions of the event handlers. -/
inductive Effect (ρ : Type)
  | clearTimeout (t : Nat)
  | abortRequest (r : Nat)
  | setTimeout (t : Nat) (val : String)
  | lookup (r : Nat) (q : String)
  | display (rs : List ρ)
  | emitResults (rs : List ρ)
  | reportError (msg : String)
  | emitSelect (p : ρ)
deriving DecidableEq, Repr

/-- A fresh component: no timer, no request, latch down, icon idle. -/
def initWorld (ρ : Type) : World ρ :=
  { session :=
      { searchTimeout := none, currentSearchRequest := none,
        isLocationSelected := false, status := .idle, suggestions := [] },
    liveTimers := [], pendingReqs := [], abortedReqs := [], nextId := 0 }

/-- `if (this.searchTimeout) { clearTimeout(this.searchTimeout); this.searchTimeout = null; }` -/
def clearTimerStep {ρ : Type} (w : World ρ) : World ρ × List (Effect ρ) :=
  match w.session.searchTimeout with
  | some t =>
    ({ w with session.searchTimeout := none,
              liveTimers := w.liveTimers.filter (fun tv => tv.1 != t) },
     [Effect.clearTimeout t])
  | none => (w, [])

/-- `if (this.currentSearchRequest) { this.currentSearchRequest.abort(); this.currentSearchRequest = null; }` -/
def abortRequestStep {ρ : Type} (w : World ρ) : World ρ × List (Effect ρ) :=
  match w.session.currentSearchRequest with
  | some r =>
    ({ w with session.currentSearchRequest := none, abortedReqs := r :: w.abortedReqs },
     [Effect.abortRequest r])
  | none => (w, [])

/-- `handleInput`: trim, unconditionally clear the pending timer and abort
the in-flight request, drop the selection latch; then either bail out on
short input (clearing suggestions, icon idle) or show the spinner and arm a
fresh 300 ms debounce timer capturing `val`. -/
def handleInput {ρ : Type} (w : World ρ) (raw : String) : World ρ × List (Effect ρ) :=
  let val : String := String.mk (jsTrim raw.data)
  let s1 := clearTimerStep w
  let s2 := abortRequestStep s1.1
  let w3 : World ρ := { s2.1 with session.isLocationSelected := false }
  if val.length < 3 then
    ({ w3 with session.suggestions := [], session.status := .idle }, s1.2 ++ s2.2)
  else
    let t := w3.nextId
    ({ w3 with session.status := .loading, session.searchTimeout := some t,
               liveTimers := (t, val) :: w3.liveTimers, nextId := w3.nextId + 1 },
     s1.2 ++ s2.2 ++ [Effect.setTimeout t val])

/-- The debounce timer with id `t` (capturing `val`) fires: the closure
allocates an `AbortController`, stores it in `currentSearchRequest` and
issues the `searchAddresses` lookup.  The stale `searchTimeout` field is
left in place, exactly as in the source. -/
def fireTimer {ρ : Type} (w : World ρ) (t : Nat) (val : String) : World ρ × List (Effect ρ) :=
  let r := w.nextId
  ({ w with liveTimers := w.liveTimers.filter (fun tv => tv.1 != t),
            session.currentSearchRequest := some r,
            pendingReqs := r :: w.pendingReqs,
            nextId := w.nextId + 1 },
   [Effect.lookup r val])

/-- How a lookup ends: resolution with results, rejection with an
`AbortError`, or rejection with any other error. -/
inductive Outcome (ρ : Type)
  | success (results : List ρ)
  | abortError
  | failure (msg : String)
deriving DecidableEq, Repr

/-- `displayResults`: empty results render the "no valid addresses" notice
with the icon reset; otherwise the icon shows success and the top 10 results
are listed.  (The 2-second checkmark auto-hide timer is display-only and is
not a debounce timer.) -/
def displayResultsStep {ρ : Type} (w : World ρ) (results : List ρ) :
    World ρ × List (Effect ρ) :=
  if results.isEmpty then
    ({ w with session.suggestions := [], session.status := .idle },
     [Effect.display []])
  else
    ({ w with session.suggestions := results.take 10, session.status := .success },
     [Effect.display (results.take 10)])

/-- The continuation of the `await searchAddresses(...)` in the debounce
closure, i.e. the success path and the `catch` block of `handleInput`. -/
def completeRequest {ρ : Type} (w : World ρ) (r : Nat) (o : Outcome ρ) :
    World ρ × List (Effect ρ) :=
  let w0 : World ρ := { w with pendingReqs := w.pendingReqs.filter (fun x => x != r) }
  match o with
  | .success results =>
    if w0.session.isLocationSelected then
      ({ w0 with session.status := .idle }, [])
    else
      let s1 := displayResultsStep w0 results
      ({ s1.1 with session.currentSearchRequest := none },
       s1.2 ++ [Effect.emitResults results])
  | .abortError => ({ w0 with session.status := .idle }, [])
  | .failure msg =>
    ({ w0 with session.status := .idle, session.currentSearchRequest := none },
     [Effect.reportError msg])

/-- `selectAddress`: raise the selection latch, abort any in-flight request,
clear the suggestion list, reset the icon, and emit the chosen place.  The
pending debounce timer, if any, is not cleared. -/
def selectAddress {ρ : Type} (w : World ρ) (p : ρ) : World ρ × List (Effect ρ) :=
  let w1 : World ρ := { w with session.isLocationSelected := true }
  let s2 := abortRequestStep w1
  ({ s2.1 with session.suggestions := [], session.status := .idle },
   s2.2 ++ [Effect.emitSelect p])

/-- Requests created but neither completed nor aborted: the lookups
currently in flight. -/
def inflight {ρ : Type} (w : World ρ) : List Nat :=
  w.pendingReqs.filter (fun r => !(w.abortedReqs.contains r))

/-- One step of the single-threaded event loop.  A timer only fires if it is
live; a request continuation only runs once (`r ∈ pendingReqs`), and it sees
an `AbortError` exactly when the controller was aborted before resolution
(`fetch` with a signal, including the body read, rejects once aborted). -/
inductive Step {ρ : Type} : World ρ → World ρ → Prop
  | input (w : World ρ) (raw : String) : Step w (handleInput w raw).1
  | fire (w : World ρ) (t : Nat) (val : String) (h : (t, val) ∈ w.liveTimers) :
      Step w (fireTimer w t val).1
  | complete (w : World ρ) (r : Nat) (o : Outcome ρ) (h : r ∈ w.pendingReqs)
      (habort : o = .abortError ↔ r ∈ w.abortedReqs) :
      Step w (completeRequest w r o).1
  | select (w : World ρ) (p : ρ) : Step w (selectAddress w p).1

/-- Worlds the event loop can actually reach from a fresh component. -/
inductive Reachable {ρ : Type} : World ρ → Prop
  | init : Reachable (initWorld ρ)
  | step {w w' : World ρ} : Reachable w → Step w w' → Reachable w'

/-- Effects that invalidate previous work (timer clearing, request abort). -/
def isCancelEff {ρ : Type} : Effect ρ → Bool
  | .clearTimeout _ => true
  | .abortRequest _ => true
  | _ => false

/-- Effects that start new work (arming a timer, issuing a lookup). -/
def isCreateEff {ρ : Type} : Effect ρ → Bool
  | .setTimeout _ _ => true
  | .lookup _ _ => true
  | _ => false

/-- Invariant maintained by every reachable world: at most one live debounce
timer, at most one lookup in flight, live handles are recorded in the
session fields (so the unconditional clear/abort in `handleInput` really
kills them), a live timer excludes an in-flight lookup, and allocated ids
stay below the fresh-id counter. -/
structure SessionInv {ρ : Type} (w : World ρ) : Prop where
  timers_le : w.liveTimers.length ≤ 1
  inflight_le : (inflight w).length ≤ 1
  timer_field : ∀ tv ∈ w.liveTimers, w.session.searchTimeout = some tv.1
  req_field : ∀ r ∈ inflight w, w.session.currentSearchRequest = some r
  timer_excl : w.liveTimers = [] ∨ inflight w = []
  field_lt : ∀ r, w.session.currentSearchRequest = some r → r < w.nextId
  fresh_aborted : ∀ r ∈ w.abortedReqs, r < w.nextId

/-- A surviving candidate carrying no distance field. -/
def roadPlace : Place ℝ :=
  { display_name := "1 A Street", lat := 40, lon := -75, type := "house",
    address := some { road := some "a street", house_number := some "1" },
    distance := none }

/-- A reference coordinate on the equator: supplied, yet falsy in the
source's `userLocation.latitude` guard. -/
def equatorRef : UserLocation ℝ := { latitude := 0, longitude := 50 }

/-- A raw hit tagged with place-type `city`. -/
def cityPlace : Place ℚ :=
  { lat := 2, lon := 3, type := "city",
    address := some { road := some "main street", house_number := some "10" } }

/-- A session with one lookup in flight (request id 0), over `ρ = Nat`. -/
def inflightWorld : World Nat :=
  { session := { searchTimeout := none, currentSearchRequest := some 0,
                 isLocationSelected := false, status := .loading, suggestions := [] },
    liveTimers := [], pendingReqs := [0], abortedReqs := [], nextId := 1 }

/-! ## Theorems -/

/-- A list of length at most one that contains `x` is exactly `[x]`. -/
theorem eq_singleton_of_length_le_one {β : Type} {l : List β} {x : β}
    (h1 : l.length ≤ 1) (h2 : x ∈ l) : l = [x] := by
  match l, h2 with
  | [a], h2 => simp_all
  | a :: b :: t, _ => simp at h1

/-- `locationTruthy` on a present location is truth of both guards. -/
theorem locationTruthy_some {α : Type} [Zero α] [DecidableEq α] (u : UserLocation α) :
    locationTruthy (some u) = true ↔ u.latitude ≠ 0 ∧ u.longitude ≠ 0 := by
  unfold locationTruthy
  by_cases h1 : u.latitude = 0 <;> by_cases h2 : u.longitude = 0 <;> simp [h1, h2]

/-- Inserting by key order places the new element before every element of
equal key, so key-filtering commutes with the insertion (no sortedness of
`l` is needed). -/
theorem filter_key_orderedInsert {β γ : Type} [LinearOrder γ] (key : β → γ)
    (k : γ) (a : β) (l : List β) :
    (List.orderedInsert (keyLE key) a l).filter (fun x => key x == k) =
      if key a = k then a :: l.filter (fun x => key x == k)
      else l.filter (fun x => key x == k) := by
  induction l with
  | nil =>
    by_cases hk : key a = k <;>
      simp [List.orderedInsert, List.filter_cons, beq_iff_eq, hk]
  | cons b t ih =>
    by_cases hab : keyLE key a b
    · by_cases hk : key a = k <;>
        simp [List.orderedInsert, if_pos hab, List.filter_cons, beq_iff_eq, hk]
    · have hblt : key b < key a := lt_of_not_le hab
      by_cases hk : key a = k
      · have hbk : key b ≠ k := by
          intro hbk
          rw [hbk, hk] at hblt
          exact lt_irrefl k hblt
        simp [List.orderedInsert, if_neg hab, List.filter_cons, beq_iff_eq, hbk, ih, hk]
      · by_cases hbk : key b = k <;>
          simp [List.orderedInsert, if_neg hab, List.filter_cons, beq_iff_eq, hbk, ih, hk]

/-- Stability of the insertion sort: the elements of any fixed key appear
in the output in their input order. -/
theorem filter_key_insertionSort {β γ : Type} [LinearOrder γ] (key : β → γ)
    (k : γ) (l : List β) :
    (l.insertionSort (keyLE key)).filter (fun x => key x == k) =
      l.filter (fun x => key x == k) := by
  induction l with
  | nil => rfl
  | cons a t ih =>
    rw [List.insertionSort, filter_key_orderedInsert]
    by_cases hk : key a = k <;> simp [List.filter_cons, beq_iff_eq, hk, ih]

/-- C2: the filter retains a raw candidate if and only if it has a
structured address breakdown, its place-type tag is outside the excluded
area types, and it has a (truthy) road name or one of building, amenity,
shop, office, house number; and a candidate tagged `"city"` is always
dropped regardless of its address fields. -/
theorem filter_retains_iff {α : Type} (p : Place α) :
    (validAddress p = true ↔
      ∃ addr, p.address = some addr ∧ p.type ∉ excludeTypes ∧
        (truthy addr.road = true ∨ truthy addr.building = true ∨
         truthy addr.amenity = true ∨ truthy addr.shop = true ∨
         truthy addr.office = true ∨ truthy addr.house_number = true))
  ∧ (p.type = "city" → validAddress p = false) := by
  constructor
  · match hp : p.address with
    | none => simp [validAddress, hp]
    | some addr =>
      by_cases ht : p.type ∈ excludeTypes
      · simp [validAddress, hp, ht]
      · simp only [validAddress, hp, ht]
        simp [ht]
        tauto
  · intro hc
    match hp : p.address with
    | none => simp [validAddress, hp]
    | some addr => simp [validAddress, hp, hc, excludeTypes]

/-- C2 witness: a concrete candidate tagged `"city"`, with both a road name
and a house number, is dropped by the filter. -/
theorem filter_retains_iff_witness :
    cityPlace.type = "city" ∧ validAddress cityPlace = false :=
  ⟨rfl, (filter_retains_iff cityPlace).2 rfl⟩

/-- C4 counterexample: the normalizer wildcards the 2-to-4-letter tokens
`main` and `elm`, so the first claimed output (and likewise the second) is
not what the code produces. -/
theorem normalize_examples_cex :
    ¬(buildSmartQuery "123 Main St." = "123 main street" ∧
      buildSmartQuery "N Elm Ave" = "north elm avenue") := by
  intro h
  exact absurd h.1 (by decide)

/-- C4 (amended): the two example inputs normalize to `"123 main* street"`
and `"north elm* avenue"` — the street-type abbreviations are expanded and
the direction abbreviation `n` becomes `north`, but `main` and `elm` are
purely alphabetic tokens of length 2–4 and therefore receive the trailing
wildcard. -/
theorem normalize_examples_wildcarded :
    buildSmartQuery "123 Main St." = "123 main* street" ∧
    buildSmartQuery "N Elm Ave" = "north elm* avenue" := ⟨rfl, rfl⟩

/-- C9: over the real-number model of JavaScript arithmetic, the haversine
distance is zero between a coordinate and itself, symmetric in its two
coordinates (exactly — the claim allows floating-point rounding), and always
non-negative. -/
theorem getDistance_zero_symm_nonneg (lat1 lon1 lat2 lon2 : ℝ) :
    getDistance lat1 lon1 lat1 lon1 = 0
  ∧ getDistance lat1 lon1 lat2 lon2 = getDistance lat2 lon2 lat1 lon1
  ∧ 0 ≤ getDistance lat1 lon1 lat2 lon2 := by
  refine ⟨?_, ?_, ?_⟩
  · dsimp only [getDistance, atan2]
    norm_num [Complex.arg_one]
  · dsimp only [getDistance]
    have hs : ∀ x : ℝ, Real.sin (-x) * Real.sin (-x) = Real.sin x * Real.sin x := by
      intro x; rw [Real.sin_neg]; ring
    have h1 : (lat1 - lat2) * Real.pi / 180 / 2 = -((lat2 - lat1) * Real.pi / 180 / 2) := by
      ring
    have h2 : (lon1 - lon2) * Real.pi / 180 / 2 = -((lon2 - lon1) * Real.pi / 180 / 2) := by
      ring
    rw [h1, h2, hs, hs,
      mul_comm (Real.cos (lat2 * Real.pi / 180)) (Real.cos (lat1 * Real.pi / 180))]
  · dsimp only [getDistance, atan2]
    have h : (0 : ℝ) ≤ Complex.arg (Complex.ofReal (Real.sqrt (1 -
        (Real.sin ((lat2 - lat1) * Real.pi / 180 / 2) *
            Real.sin ((lat2 - lat1) * Real.pi / 180 / 2) +
          Real.cos (lat1 * Real.pi / 180) * Real.cos (lat2 * Real.pi / 180) *
            (Real.sin ((lon2 - lon1) * Real.pi / 180 / 2) *
              Real.sin ((lon2 - lon1) * Real.pi / 180 / 2))))) +
        Complex.ofReal (Real.sqrt
        (Real.sin ((lat2 - lat1) * Real.pi / 180 / 2) *
            Real.sin ((lat2 - lat1) * Real.pi / 180 / 2) +
          Real.cos (lat1 * Real.pi / 180) * Real.cos (lat2 * Real.pi / 180) *
            (Real.sin ((lon2 - lon1) * Real.pi / 180 / 2) *
              Real.sin ((lon2 - lon1) * Real.pi / 180 / 2)))) * Complex.I) := by
      refine Complex.arg_nonneg_iff.mpr ?_
      simp [Real.sqrt_nonneg]
    nlinarith [h]

/-- C10: a supplied reference whose latitude or longitude equals zero fails
the source's truthiness guard, so no viewbox bias is added to the request,
no distance is computed and no proximity sort occurs: the filtered
candidates are returned exactly as the provider ordered them. -/
theorem zero_coordinate_reference_ignored (data : List (Place ℝ)) (u : UserLocation ℝ)
    (h : u.latitude = 0 ∨ u.longitude = 0) :
    requestHasViewbox (some u) = false
  ∧ searchAddressesModel getDistance data (some u) = data.filter validAddress := by
  have hf : locationTruthy (some u) = false := by
    rcases h with h | h <;> simp [locationTruthy, h]
  constructor
  · simpa [requestHasViewbox] using hf
  · simp [searchAddressesModel, hf]

/-- C1 counterexample: a reference on the equator (`latitude = 0`) is
supplied, and the candidate `roadPlace` survives the filter, yet the search
returns it unchanged — its `distance` stays unset, contradicting the claim
that a supplied reference always yields ranked, distance-annotated
output. -/
theorem ranking_zero_latitude_cex :
    validAddress roadPlace = true
  ∧ searchAddressesModel getDistance [roadPlace] (some equatorRef) = [roadPlace]
  ∧ roadPlace.distance = none := by
  refine ⟨rfl, ?_, rfl⟩
  have hf : locationTruthy (some equatorRef) = false := by
    simp [locationTruthy, equatorRef]
  simp [searchAddressesModel, hf, List.filter_cons,
    show validAddress roadPlace = true from rfl]

/-- C1 (amended): when the supplied reference has nonzero latitude and
longitude, `searchAddresses` returns a permutation of the distance-annotated
filtered candidates, each carrying
`distance = getDistance(reference, candidate)`, sorted ascending by distance
with ties in input order (the key-filter equation); and whenever the
reference is absent or fails the truthiness guard, the filtered candidates
come back in provider order with no distance set. -/
theorem searchAddresses_ranking_spec (data : List (Place ℝ)) (u : UserLocation ℝ)
    (hlat : u.latitude ≠ 0) (hlon : u.longitude ≠ 0) :
    (searchAddressesModel getDistance data (some u)).Perm
      ((data.filter validAddress).map (annotate getDistance u))
  ∧ (∀ p ∈ searchAddressesModel getDistance data (some u),
      p.distance = some (getDistance u.latitude u.longitude p.lat p.lon))
  ∧ (searchAddressesModel getDistance data (some u)).Pairwise
      (fun a b => distKey a ≤ distKey b)
  ∧ (∀ k : ℝ, (searchAddressesModel getDistance data (some u)).filter
        (fun p => distKey p == k) =
      ((data.filter validAddress).map (annotate getDistance u)).filter
        (fun p => distKey p == k))
  ∧ (∀ v : Option (UserLocation ℝ), locationTruthy v = false →
      searchAddressesModel getDistance data v = data.filter validAddress) := by
  have ht : locationTruthy (some u) = true := (locationTruthy_some u).mpr ⟨hlat, hlon⟩
  have hmodel : searchAddressesModel getDistance data (some u) =
      ((data.filter validAddress).map (annotate getDistance u)).insertionSort
        (keyLE distKey) := by
    simp [searchAddressesModel, ht]
  refine ⟨?_, ?_, ?_, ?_, ?_⟩
  · rw [hmodel]
    exact List.perm_insertionSort _ _
  · intro p hp
    rw [hmodel] at hp
    have hp2 : p ∈ (data.filter validAddress).map (annotate getDistance u) :=
      (List.mem_insertionSort _).mp hp
    rcases List.mem_map.mp hp2 with ⟨q, hq, rfl⟩
    rfl
  · rw [hmodel]
    have hs := List.sorted_insertionSort (keyLE distKey)
      ((data.filter validAddress).map (annotate getDistance u))
    exact hs.imp (fun h => h)
  · intro k
    rw [hmodel]
    exact filter_key_insertionSort distKey k _
  · intro v hv
    match v with
    | none => rfl
    | some u2 => simp [searchAddressesModel, hv]

/-- C1 witness: the ranking specification instantiated at the reference
`(1, 1)` and the single surviving candidate `roadPlace`. -/
theorem searchAddresses_ranking_spec_witness :
    ((1 : ℝ) ≠ 0) ∧
    ((searchAddressesModel getDistance [roadPlace] (some ⟨1, 1⟩)).Perm
        (([roadPlace].filter validAddress).map (annotate getDistance ⟨1, 1⟩))
      ∧ (∀ p ∈ searchAddressesModel getDistance [roadPlace] (some ⟨1, 1⟩),
          p.distance = some (getDistance 1 1 p.lat p.lon))
      ∧ (searchAddressesModel getDistance [roadPlace] (some ⟨1, 1⟩)).Pairwise
          (fun a b => distKey a ≤ distKey b)
      ∧ (∀ k : ℝ, (searchAddressesModel getDistance [roadPlace] (some ⟨1, 1⟩)).filter
            (fun p => distKey p == k) =
          (([roadPlace].filter validAddress).map (annotate getDistance ⟨1, 1⟩)).filter
            (fun p => distKey p == k))
      ∧ (∀ v : Option (UserLocation ℝ), locationTruthy v = false →
          searchAddressesModel getDistance [roadPlace] v =
            [roadPlace].filter validAddress)) :=
  ⟨one_ne_zero, searchAddresses_ranking_spec [roadPlace] ⟨1, 1⟩ one_ne_zero one_ne_zero⟩

/-- C10 witness: the equator reference with one surviving candidate. -/
theorem zero_coordinate_reference_ignored_witness :
    (equatorRef.latitude = 0 ∨ equatorRef.longitude = 0)
  ∧ (requestHasViewbox (some equatorRef) = false
     ∧ searchAddressesModel getDistance [roadPlace] (some equatorRef) =
         [roadPlace].filter validAddress) :=
  ⟨Or.inl rfl, zero_coordinate_reference_ignored [roadPlace] equatorRef (Or.inl rfl)⟩

/-- C3 counterexample: the token `__proto__` survives cleaning, is not a
digit run, is in neither abbreviation table and is not a 2-to-4-letter
alphabetic token, so the claim says it passes through unchanged; but the
object-literal index `directionAbbreviations["__proto__"]` finds the
inherited prototype object, which is truthy, so the code takes the
abbreviation branch and emits the coercion `"[object Object]"` instead. -/
theorem normalize_inherited_key_cex :
    processWord ("__proto__".data) ≠ some "__proto__"
  ∧ processWord ("__proto__".data) = some "[object Object]"
  ∧ buildSmartQuery "__proto__" = "[object Object]" :=
  ⟨by decide, rfl, rfl⟩

/-- C3 (amended): the per-token classification of the normalizer, first
match wins: an all-digit cleaned token passes through; otherwise a hit among
the `directionAbbreviations` own properties is replaced by the full word;
otherwise a cleaned token naming an inherited `Object.prototype` property
(`constructor`, `__proto__`) is truthy under the object-literal index and is
replaced by the string coercion of the inherited value; otherwise a hit
among the `streetTypeAbbreviations` own properties is expanded; otherwise a
purely alphabetic token of length 2–4 gets a trailing `*`; otherwise the
cleaned token passes through unchanged.  In particular
`normalize "St" = "street"` — the abbreviation rule beats the wildcard
rule. -/
theorem normalize_classification :
    (∀ word : List Char, word.filter isWordChar ≠ [] →
      ((word.filter isWordChar).all isDigitChar = true →
        processWord word = some (String.mk (word.filter isWordChar)))
      ∧ (∀ full : String, (word.filter isWordChar).all isDigitChar = false →
          ownProperty directionAbbreviations (String.mk (word.filter isWordChar)) =
            some full →
          processWord word = some full)
      ∧ (∀ v : String, (word.filter isWordChar).all isDigitChar = false →
          ownProperty directionAbbreviations (String.mk (word.filter isWordChar)) = none →
          ownProperty objectPrototypeProps (String.mk (word.filter isWordChar)) =
            some v →
          processWord word = some v)
      ∧ (∀ full : String, (word.filter isWordChar).all isDigitChar = false →
          ownProperty directionAbbreviations (String.mk (word.filter isWordChar)) = none →
          ownProperty objectPrototypeProps (String.mk (word.filter isWordChar)) = none →
          ownProperty streetTypeAbbreviations (String.mk (word.filter isWordChar)) =
            some full →
          processWord word = some full)
      ∧ ((word.filter isWordChar).all isDigitChar = false →
          ownProperty directionAbbreviations (String.mk (word.filter isWordChar)) = none →
          ownProperty objectPrototypeProps (String.mk (word.filter isWordChar)) = none →
          ownProperty streetTypeAbbreviations (String.mk (word.filter isWordChar)) = none →
          (word.filter isWordChar).all isAsciiLetter = true →
          2 ≤ (word.filter isWordChar).length →
          (word.filter isWordChar).length ≤ 4 →
          processWord word = some (String.mk (word.filter isWordChar) ++ "*"))
      ∧ ((word.filter isWordChar).all isDigitChar = false →
          ownProperty directionAbbreviations (String.mk (word.filter isWordChar)) = none →
          ownProperty objectPrototypeProps (String.mk (word.filter isWordChar)) = none →
          ownProperty streetTypeAbbreviations (String.mk (word.filter isWordChar)) = none →
          ¬((word.filter isWordChar).all isAsciiLetter = true ∧
            2 ≤ (word.filter isWordChar).length ∧
            (word.filter isWordChar).length ≤ 4) →
          processWord word = some (String.mk (word.filter isWordChar))))
  ∧ buildSmartQuery "St" = "street" := by
  constructor
  · intro word hw
    have hne : word ≠ [] := by
      intro h
      rw [h] at hw
      exact hw rfl
    have hwordE : word.isEmpty = false := by simpa [List.isEmpty_iff] using hne
    have hcleanE : (word.filter isWordChar).isEmpty = false := by
      simpa [List.isEmpty_iff] using hw
    refine ⟨?_, ?_, ?_, ?_, ?_, ?_⟩
    · intro h1
      simp [processWord, hwordE, hcleanE, h1]
    · intro full h1 h2
      simp [processWord, lookupAbbrev, hwordE, hcleanE, h1, h2]
    · intro v h1 h2 h3
      simp [processWord, lookupAbbrev, hwordE, hcleanE, h1, h2, h3]
    · intro full h1 h2 h3 h4
      simp [processWord, lookupAbbrev, hwordE, hcleanE, h1, h2, h3, h4]
    · intro h1 h2 h3 h4 h5 h6 h7
      simp [processWord, lookupAbbrev, hwordE, hcleanE, h1, h2, h3, h4, h5, h6, h7]
    · intro h1 h2 h3 h4 h5
      simp only [processWord, lookupAbbrev, hwordE, hcleanE, h1, h2, h3, h4,
        Bool.false_eq_true, if_false]
      rw [if_neg]
      intro hc
      rw [Bool.and_eq_true, Bool.and_eq_true] at hc
      exact h5 ⟨hc.1.1, of_decide_eq_true hc.1.2, of_decide_eq_true hc.2⟩
  · rfl

/-- C3 witness: the token `st` survives cleaning, collides with no inherited
property and, although it is a 2-letter alphabetic token, the street-type
rule fires first. -/
theorem normalize_classification_witness :
    (('s' :: 't' :: []).filter isWordChar ≠ []) ∧
    processWord ('s' :: 't' :: []) = some "street" :=
  ⟨by decide,
    (normalize_classification.1 ('s' :: 't' :: []) (by decide)).2.2.2.1 "street"
      (by decide) (by decide) (by decide) (by decide)⟩

/-- `inflight` only reads the pending and aborted request lists. -/
theorem inflight_congr {ρ : Type} (w w2 : World ρ)
    (hp : w.pendingReqs = w2.pendingReqs) (ha : w.abortedReqs = w2.abortedReqs) :
    inflight w = inflight w2 := by
  unfold inflight
  rw [hp, ha]

/-- Fields untouched by clearing the timer, and the cleared field. -/
theorem clearTimerStep_frame {ρ : Type} (w : World ρ) :
    (clearTimerStep w).1.pendingReqs = w.pendingReqs
  ∧ (clearTimerStep w).1.abortedReqs = w.abortedReqs
  ∧ (clearTimerStep w).1.nextId = w.nextId
  ∧ (clearTimerStep w).1.session.currentSearchRequest = w.session.currentSearchRequest
  ∧ (clearTimerStep w).1.session.searchTimeout = none := by
  match hT : w.session.searchTimeout with
  | none => simp [clearTimerStep, hT]
  | some t => simp [clearTimerStep, hT]

/-- When every live timer is recorded in `searchTimeout`, the
unconditional clear kills them all. -/
theorem clearTimerStep_liveTimers {ρ : Type} (w : World ρ)
    (hf : ∀ tv ∈ w.liveTimers, w.session.searchTimeout = some tv.1) :
    (clearTimerStep w).1.liveTimers = [] := by
  match hT : w.session.searchTimeout with
  | none =>
    simp only [clearTimerStep, hT]
    rw [List.eq_nil_iff_forall_not_mem]
    intro tv htv
    exact Option.noConfusion (hT ▸ hf tv htv)
  | some t =>
    simp only [clearTimerStep, hT]
    rw [List.eq_nil_iff_forall_not_mem]
    intro tv htv
    have h2 := List.mem_filter.mp htv
    have h3 := hf tv h2.1
    rw [hT] at h3
    have h4 : tv.1 = t := (Option.some.inj h3).symm
    simp [h4] at h2

/-- Fields untouched by aborting the request, and the cleared field. -/
theorem abortRequestStep_frame {ρ : Type} (w : World ρ) :
    (abortRequestStep w).1.liveTimers = w.liveTimers
  ∧ (abortRequestStep w).1.pendingReqs = w.pendingReqs
  ∧ (abortRequestStep w).1.nextId = w.nextId
  ∧ (abortRequestStep w).1.session.searchTimeout = w.session.searchTimeout
  ∧ (abortRequestStep w).1.session.currentSearchRequest = none
  ∧ (abortRequestStep w).1.session.isLocationSelected = w.session.isLocationSelected := by
  match hR : w.session.currentSearchRequest with
  | none => simp [abortRequestStep, hR]
  | some r => simp [abortRequestStep, hR]

/-- When every in-flight request is recorded in `currentSearchRequest`,
the unconditional abort empties the in-flight set. -/
theorem abortRequestStep_inflight {ρ : Type} (w : World ρ)
    (hr : ∀ r ∈ inflight w, w.session.currentSearchRequest = some r) :
    inflight (abortRequestStep w).1 = [] := by
  rw [List.eq_nil_iff_forall_not_mem]
  intro x hx
  match hR : w.session.currentSearchRequest with
  | none =>
    simp only [abortRequestStep, hR] at hx
    exact Option.noConfusion (hR ▸ hr x hx)
  | some r0 =>
    simp only [abortRequestStep, hR, inflight, List.mem_filter] at hx
    have hxw : x ∈ inflight w := by
      rw [inflight, List.mem_filter]
      refine ⟨hx.1, ?_⟩
      have := hx.2
      simp only [List.contains_cons] at this
      simp_all
    have h3 := hr x hxw
    rw [hR] at h3
    have h4 : x = r0 := (Option.some.inj h3).symm
    simp [h4] at hx

/-- Aborting only records an id that was already allocated. -/
theorem abortRequestStep_aborted_lt {ρ : Type} (w : World ρ)
    (hlt : ∀ r, w.session.currentSearchRequest = some r → r < w.nextId)
    (hab : ∀ r ∈ w.abortedReqs, r < w.nextId) :
    ∀ r ∈ (abortRequestStep w).1.abortedReqs, r < w.nextId := by
  intro r hr
  match hR : w.session.currentSearchRequest with
  | none =>
    simp only [abortRequestStep, hR] at hr
    exact hab r hr
  | some r0 =>
    simp only [abortRequestStep, hR, List.mem_cons] at hr
    rcases hr with hr | hr
    · exact hr ▸ hlt r0 hR
    · exact hab r hr

/-- State of the session right after `handleInput`'s unconditional
clear-and-abort prefix. -/
theorem after_cancel_facts {ρ : Type} (w : World ρ) (hI : SessionInv w) :
    (abortRequestStep (clearTimerStep w).1).1.liveTimers = []
  ∧ inflight (abortRequestStep (clearTimerStep w).1).1 = []
  ∧ (abortRequestStep (clearTimerStep w).1).1.session.searchTimeout = none
  ∧ (abortRequestStep (clearTimerStep w).1).1.session.currentSearchRequest = none
  ∧ (abortRequestStep (clearTimerStep w).1).1.nextId = w.nextId
  ∧ (abortRequestStep (clearTimerStep w).1).1.pendingReqs = w.pendingReqs
  ∧ (∀ r ∈ (abortRequestStep (clearTimerStep w).1).1.abortedReqs, r < w.nextId) := by
  obtain ⟨cf1, cf2, cf3, cf4, cf5⟩ := clearTimerStep_frame w
  have hLT1 := clearTimerStep_liveTimers w hI.timer_field
  have hInf1 : inflight (clearTimerStep w).1 = inflight w := inflight_congr _ _ cf1 cf2
  have hrq1 : ∀ r ∈ inflight (clearTimerStep w).1,
      (clearTimerStep w).1.session.currentSearchRequest = some r := by
    intro r hr
    rw [cf4]
    exact hI.req_field r (hInf1 ▸ hr)
  obtain ⟨af1, af2, af3, af4, af5, af6⟩ := abortRequestStep_frame (clearTimerStep w).1
  refine ⟨af1.trans hLT1, abortRequestStep_inflight _ hrq1, af4.trans cf5, af5,
    af3.trans cf3, af2.trans cf1, ?_⟩
  have h1 : ∀ r, (clearTimerStep w).1.session.currentSearchRequest = some r →
      r < (clearTimerStep w).1.nextId := by
    intro r hr
    rw [cf3]
    exact hI.field_lt r (cf4 ▸ hr)
  have h2 : ∀ r ∈ (clearTimerStep w).1.abortedReqs, r < (clearTimerStep w).1.nextId := by
    intro r hr
    rw [cf3]
    exact hI.fresh_aborted r (cf2 ▸ hr)
  intro r hr
  have h3 := abortRequestStep_aborted_lt (clearTimerStep w).1 h1 h2 r hr
  rwa [cf3] at h3

/-- `handleInput` preserves the session invariant. -/
theorem sessionInv_handleInput {ρ : Type} (w : World ρ) (raw : String)
    (hI : SessionInv w) : SessionInv (handleInput w raw).1 := by
  obtain ⟨f1, f2, f3, f4, f5, f6, f7⟩ := after_cancel_facts w hI
  by_cases hlen : (String.mk (jsTrim raw.data)).length < 3
  · simp only [handleInput, hlen, if_true, if_pos]
    rw [f3, f4, f1]
    refine ⟨?_, ?_, ?_, ?_, ?_, ?_, ?_⟩
    · simp
    · show (inflight (abortRequestStep (clearTimerStep w).1).1).length ≤ 1
      rw [f2]
      simp
    · intro tv htv
      exact absurd htv (List.not_mem_nil tv)
    · intro r hr
      have hr2 : r ∈ inflight (abortRequestStep (clearTimerStep w).1).1 := hr
      rw [f2] at hr2
      exact absurd hr2 (List.not_mem_nil r)
    · exact Or.inl rfl
    · intro r hr
      exact Option.noConfusion hr
    · intro r hr
      show r < (abortRequestStep (clearTimerStep w).1).1.nextId
      rw [f5]
      exact f7 r hr
  · simp only [handleInput, hlen, if_false, if_neg, not_false_iff]
    rw [f4, f1]
    refine ⟨?_, ?_, ?_, ?_, ?_, ?_, ?_⟩
    · simp
    · show (inflight (abortRequestStep (clearTimerStep w).1).1).length ≤ 1
      rw [f2]
      simp
    · intro tv htv
      rcases List.mem_singleton.mp htv with rfl
      rfl
    · intro r hr
      have hr2 : r ∈ inflight (abortRequestStep (clearTimerStep w).1).1 := hr
      rw [f2] at hr2
      exact absurd hr2 (List.not_mem_nil r)
    · exact Or.inr f2
    · intro r hr
      exact Option.noConfusion hr
    · intro r hr
      show r < (abortRequestStep (clearTimerStep w).1).1.nextId + 1
      rw [f5]
      exact Nat.lt_succ_of_lt (f7 r hr)

/-- Firing the (unique) live debounce timer preserves the invariant: the
fresh request becomes the only in-flight lookup. -/
theorem sessionInv_fireTimer {ρ : Type} (w : World ρ) (t : Nat) (val : String)
    (hmem : (t, val) ∈ w.liveTimers) (hI : SessionInv w) :
    SessionInv (fireTimer w t val).1 := by
  have hLT : w.liveTimers = [(t, val)] := eq_singleton_of_length_le_one hI.timers_le hmem
  have hfilter : w.liveTimers.filter (fun tv => tv.1 != t) = [] := by
    rw [hLT]
    simp
  have hInfW : inflight w = [] := by
    rcases hI.timer_excl with h | h
    · rw [hLT] at h
      exact absurd h (by simp)
    · exact h
  have hIW2 : List.filter (fun x => !decide (x ∈ w.abortedReqs)) w.pendingReqs = [] := by
    simpa [inflight] using hInfW
  have hnab : w.nextId ∉ w.abortedReqs := by
    intro hcc
    exact absurd (hI.fresh_aborted w.nextId hcc) (lt_irrefl _)
  simp only [fireTimer]
  rw [hfilter]
  refine ⟨?_, ?_, ?_, ?_, ?_, ?_, ?_⟩
  · simp
  · show ((w.nextId :: w.pendingReqs).filter
      (fun x => !(w.abortedReqs.contains x))).length ≤ 1
    simp only [List.filter_cons, List.elem_eq_mem]
    simp [hnab, hIW2]
  · intro tv htv
    exact absurd htv (List.not_mem_nil tv)
  · intro x hx
    have hx2 : x ∈ (w.nextId :: w.pendingReqs).filter
        (fun y => !(w.abortedReqs.contains y)) := hx
    simp only [List.filter_cons, List.elem_eq_mem] at hx2
    simp only [hnab, decide_False, Bool.not_false, if_true, hIW2] at hx2
    have : x = w.nextId := by simpa using hx2
    simp [this]
  · exact Or.inl rfl
  · intro x hx
    have : x = w.nextId := Option.some.inj hx.symm
    simp [this]
  · intro x hx
    exact Nat.lt_succ_of_lt (hI.fresh_aborted x hx)

/-- `selectAddress` preserves the invariant. -/
theorem sessionInv_select {ρ : Type} (w : World ρ) (p : ρ) (hI : SessionInv w) :
    SessionInv (selectAddress w p).1 := by
  obtain ⟨af1, af2, af3, af4, af5, af6⟩ :=
    abortRequestStep_frame { w with session.isLocationSelected := true }
  have hrq : ∀ r ∈ inflight { w with session.isLocationSelected := true },
      ({ w with session.isLocationSelected := true } : World ρ).session.currentSearchRequest
        = some r := fun r hr => hI.req_field r hr
  have hinf := abortRequestStep_inflight _ hrq
  have hablt := abortRequestStep_aborted_lt { w with session.isLocationSelected := true }
    (fun r hr => hI.field_lt r hr) (fun r hr => hI.fresh_aborted r hr)
  simp only [selectAddress]
  refine ⟨?_, ?_, ?_, ?_, ?_, ?_, ?_⟩
  · rw [af1]
    exact hI.timers_le
  · show (inflight (abortRequestStep
      { w with session.isLocationSelected := true }).1).length ≤ 1
    rw [hinf]
    simp
  · intro tv htv
    rw [af1] at htv
    rw [af4]
    exact hI.timer_field tv htv
  · intro x hx
    have hx2 : x ∈ inflight (abortRequestStep
        { w with session.isLocationSelected := true }).1 := hx
    rw [hinf] at hx2
    exact absurd hx2 (List.not_mem_nil x)
  · exact Or.inr hinf
  · intro x hx
    rw [af5] at hx
    exact Option.noConfusion hx
  · intro x hx
    rw [af3]
    exact hablt x hx

/-- `displayResults` only touches the suggestion list and the icon. -/
theorem displayResultsStep_frame {ρ : Type} (w : World ρ) (results : List ρ) :
    (displayResultsStep w results).1.pendingReqs = w.pendingReqs
  ∧ (displayResultsStep w results).1.abortedReqs = w.abortedReqs
  ∧ (displayResultsStep w results).1.liveTimers = w.liveTimers
  ∧ (displayResultsStep w results).1.nextId = w.nextId
  ∧ (displayResultsStep w results).1.session.searchTimeout = w.session.searchTimeout
  ∧ (displayResultsStep w results).1.session.currentSearchRequest
      = w.session.currentSearchRequest := by
  by_cases h : results.isEmpty <;> simp [displayResultsStep, h]

/-- Every completion removes exactly the finished request from the pending
list and leaves timers, aborted ids and the id counter alone. -/
theorem completeRequest_frame {ρ : Type} (w : World ρ) (r : Nat) (o : Outcome ρ) :
    (completeRequest w r o).1.pendingReqs = w.pendingReqs.filter (fun x => x != r)
  ∧ (completeRequest w r o).1.abortedReqs = w.abortedReqs
  ∧ (completeRequest w r o).1.liveTimers = w.liveTimers
  ∧ (completeRequest w r o).1.nextId = w.nextId
  ∧ (completeRequest w r o).1.session.searchTimeout = w.session.searchTimeout := by
  match o with
  | .abortError => simp [completeRequest]
  | .failure msg => simp [completeRequest]
  | .success results =>
    by_cases hL : w.session.isLocationSelected
    · simp [completeRequest, hL]
    · obtain ⟨d1, d2, d3, d4, d5, d6⟩ := displayResultsStep_frame
        { w with pendingReqs := w.pendingReqs.filter (fun x => x != r) } results
      simp only [completeRequest, hL, if_false, Bool.false_eq_true]
      exact ⟨d1, d2, d3, d4, d5⟩

/-- Completion removes the finished request from the in-flight set. -/
theorem inflight_completeRequest {ρ : Type} (w : World ρ) (r : Nat) (o : Outcome ρ) :
    inflight (completeRequest w r o).1 = (inflight w).filter (fun x => x != r) := by
  obtain ⟨g1, g2, g3, g4, g5⟩ := completeRequest_frame w r o
  unfold inflight
  rw [g1, g2, List.filter_filter, List.filter_filter]
  congr 1
  funext x
  rw [Bool.and_comm]

/-- `currentSearchRequest` after a completion: kept by the `AbortError`
path and by the discarded-after-selection path, cleared by the normal
success path and by the failure path. -/
theorem completeRequest_field {ρ : Type} (w : World ρ) (r : Nat) (o : Outcome ρ) :
    ((o = Outcome.abortError ∨
        (∃ results, o = Outcome.success results ∧ w.session.isLocationSelected = true)) →
      (completeRequest w r o).1.session.currentSearchRequest
        = w.session.currentSearchRequest)
  ∧ ((∃ results, o = Outcome.success results ∧ w.session.isLocationSelected = false) ∨
        (∃ msg, o = Outcome.failure msg) →
      (completeRequest w r o).1.session.currentSearchRequest = none) := by
  constructor
  · rintro (rfl | ⟨results, rfl, hL⟩)
    · simp [completeRequest]
    · simp [completeRequest, hL]
  · rintro (⟨results, rfl, hL⟩ | ⟨msg, rfl⟩)
    · simp [completeRequest, hL]
    · simp [completeRequest]

/-- Running a lookup continuation preserves the invariant. -/
theorem sessionInv_complete {ρ : Type} (w : World ρ) (r : Nat) (o : Outcome ρ)
    (hmem : r ∈ w.pendingReqs) (habort : o = Outcome.abortError ↔ r ∈ w.abortedReqs)
    (hI : SessionInv w) : SessionInv (completeRequest w r o).1 := by
  obtain ⟨g1, g2, g3, g4, g5⟩ := completeRequest_frame w r o
  have hinff := inflight_completeRequest w r o
  have hsub : ∀ x ∈ inflight (completeRequest w r o).1, x ∈ inflight w ∧ x ≠ r := by
    intro x hx
    rw [hinff] at hx
    have h2 := List.mem_filter.mp hx
    exact ⟨h2.1, by simpa using h2.2⟩
  have hfieldkeep : ∀ x,
      (completeRequest w r o).1.session.currentSearchRequest = some x →
      (w.session.currentSearchRequest = some x ∨ False) := by
    intro x hx
    match o, habort with
    | Outcome.abortError, _ =>
      left
      rw [← (completeRequest_field w r Outcome.abortError).1 (Or.inl rfl)]
      exact hx
    | Outcome.success results, hab =>
      match hL : w.session.isLocationSelected with
      | true =>
        left
        rw [← (completeRequest_field w r (Outcome.success results)).1
          (Or.inr ⟨results, rfl, hL⟩)]
        exact hx
      | false =>
        rw [(completeRequest_field w r (Outcome.success results)).2
          (Or.inl ⟨results, rfl, hL⟩)] at hx
        exact Option.noConfusion hx
    | Outcome.failure msg, hab =>
      rw [(completeRequest_field w r (Outcome.failure msg)).2 (Or.inr ⟨msg, rfl⟩)] at hx
      exact Option.noConfusion hx
  refine ⟨?_, ?_, ?_, ?_, ?_, ?_, ?_⟩
  · rw [g3]
    exact hI.timers_le
  · rw [hinff]
    exact le_trans (List.length_filter_le _ _) hI.inflight_le
  · intro tv htv
    rw [g3] at htv
    rw [g5]
    exact hI.timer_field tv htv
  · intro x hx
    obtain ⟨hxw, hxr⟩ := hsub x hx
    match o, habort with
    | Outcome.abortError, hab =>
      rw [(completeRequest_field w r Outcome.abortError).1 (Or.inl rfl)]
      exact hI.req_field x hxw
    | Outcome.success results, hab =>
      match hL : w.session.isLocationSelected with
      | true =>
        rw [(completeRequest_field w r (Outcome.success results)).1
          (Or.inr ⟨results, rfl, hL⟩)]
        exact hI.req_field x hxw
      | false =>
        have hrnotab : r ∉ w.abortedReqs := by
          intro hc
          exact Outcome.noConfusion (hab.mpr hc)
        have hrin : r ∈ inflight w := by
          rw [inflight, List.mem_filter]
          exact ⟨hmem, by simpa using hrnotab⟩
        have h1 := hI.req_field x hxw
        have h2 := hI.req_field r hrin
        rw [h1] at h2
        exact absurd (Option.some.inj h2) hxr
    | Outcome.failure msg, hab =>
      have hrnotab : r ∉ w.abortedReqs := by
        intro hc
        exact Outcome.noConfusion (hab.mpr hc)
      have hrin : r ∈ inflight w := by
        rw [inflight, List.mem_filter]
        exact ⟨hmem, by simpa using hrnotab⟩
      have h1 := hI.req_field x hxw
      have h2 := hI.req_field r hrin
      rw [h1] at h2
      exact absurd (Option.some.inj h2) hxr
  · rcases hI.timer_excl with h | h
    · left
      rw [g3]
      exact h
    · right
      rw [hinff, h]
      rfl
  · intro x hx
    rcases hfieldkeep x hx with h | h
    · rw [g4]
      exact hI.field_lt x h
    · exact absurd h not_false
  · intro x hx
    rw [g4]
    rw [g2] at hx
    exact hI.fresh_aborted x hx

/-- The fresh component satisfies the invariant. -/
theorem sessionInv_init {ρ : Type} : SessionInv (initWorld ρ) := by
  refine ⟨?_, ?_, ?_, ?_, ?_, ?_, ?_⟩ <;> simp [initWorld, inflight]

/-- The session invariant holds in every reachable world. -/
theorem reachable_sessionInv {ρ : Type} {w : World ρ} (h : Reachable w) : SessionInv w := by
  induction h with
  | init => exact sessionInv_init
  | step hr hstep ih =>
    cases hstep with
    | input raw => exact sessionInv_handleInput _ raw ih
    | fire t val hmem => exact sessionInv_fireTimer _ t val hmem ih
    | complete r o hmem habort => exact sessionInv_complete _ r o hmem habort ih
    | select p => exact sessionInv_select _ p ih

/-- A cancel effect is not a create effect. -/
theorem cancelEff_not_create {ρ : Type} (e : Effect ρ) (h : isCancelEff e = true) :
    isCreateEff e = false := by
  match e with
  | .clearTimeout _ => rfl
  | .abortRequest _ => rfl
  | .setTimeout _ _ => exact Bool.noConfusion h
  | .lookup _ _ => exact Bool.noConfusion h
  | .display _ => exact Bool.noConfusion h
  | .emitResults _ => exact Bool.noConfusion h
  | .reportError _ => exact Bool.noConfusion h
  | .emitSelect _ => exact Bool.noConfusion h

/-- A cancel effect is not a diagnostic report. -/
theorem cancelEff_ne_report {ρ : Type} (e : Effect ρ) (h : isCancelEff e = true)
    (msg : String) : e ≠ Effect.reportError msg := by
  match e with
  | .clearTimeout _ => exact Effect.noConfusion
  | .abortRequest _ => exact Effect.noConfusion
  | .reportError _ => exact Bool.noConfusion h

/-- Clearing the timer emits only cancel effects. -/
theorem clearTimerStep_effects {ρ : Type} (w : World ρ) :
    ∀ e ∈ (clearTimerStep w).2, isCancelEff e = true := by
  match hT : w.session.searchTimeout with
  | none => simp [clearTimerStep, hT]
  | some t => simp [clearTimerStep, hT, isCancelEff]

/-- Aborting the request emits only cancel effects. -/
theorem abortRequestStep_effects {ρ : Type} (w : World ρ) :
    ∀ e ∈ (abortRequestStep w).2, isCancelEff e = true := by
  match hR : w.session.currentSearchRequest with
  | none => simp [abortRequestStep, hR]
  | some r => simp [abortRequestStep, hR, isCancelEff]

/-- The effect trace of a keystroke: a present timer is always cleared, a
present request is always aborted, and no create effect (timer arming,
lookup issue) ever precedes a cancel effect. -/
theorem handleInput_trace {ρ : Type} (w : World ρ) (raw : String) :
    (∀ t, w.session.searchTimeout = some t →
        Effect.clearTimeout t ∈ (handleInput w raw).2)
  ∧ (∀ r, w.session.currentSearchRequest = some r →
        Effect.abortRequest r ∈ (handleInput w raw).2)
  ∧ (handleInput w raw).2.Pairwise
      (fun a b => ¬(isCreateEff a = true ∧ isCancelEff b = true)) := by
  rcases hT : w.session.searchTimeout with _ | t <;>
    rcases hR : w.session.currentSearchRequest with _ | r <;>
    by_cases hlen : (jsTrim raw.data).length < 3 <;>
    simp [handleInput, clearTimerStep, abortRequestStep, hT, hR, hlen,
      List.pairwise_cons, isCreateEff, isCancelEff]

/-- C5: in every reachable state the session owns at most one live debounce
timer and at most one in-flight lookup, and every keystroke unconditionally
clears the pending timer and aborts the in-flight request (even when the
new input is too short) before creating anything new. -/
theorem session_single_flight {ρ : Type} :
    (∀ w : World ρ, Reachable w →
        w.liveTimers.length ≤ 1 ∧ (inflight w).length ≤ 1)
  ∧ (∀ (w : World ρ) (raw : String),
        (∀ t, w.session.searchTimeout = some t →
            Effect.clearTimeout t ∈ (handleInput w raw).2)
      ∧ (∀ r, w.session.currentSearchRequest = some r →
            Effect.abortRequest r ∈ (handleInput w raw).2)
      ∧ (handleInput w raw).2.Pairwise
          (fun a b => ¬(isCreateEff a = true ∧ isCancelEff b = true))) :=
  ⟨fun _ h => ⟨(reachable_sessionInv h).timers_le, (reachable_sessionInv h).inflight_le⟩,
   fun w raw => handleInput_trace w raw⟩

/-- C5 witness: the state reached after one keystroke from a fresh
component. -/
theorem session_single_flight_witness :
    Reachable ((handleInput (initWorld Nat) "1600 Pennsylvania Ave").1)
  ∧ ((handleInput (initWorld Nat) "1600 Pennsylvania Ave").1.liveTimers.length ≤ 1
     ∧ (inflight ((handleInput (initWorld Nat) "1600 Pennsylvania Ave").1)).length ≤ 1) :=
  ⟨Reachable.step Reachable.init (Step.input (initWorld Nat) "1600 Pennsylvania Ave"),
   (@session_single_flight Nat).1 _
     (Reachable.step Reachable.init (Step.input (initWorld Nat) "1600 Pennsylvania Ave"))⟩

/-- C6: selecting a suggestion while a lookup is in flight aborts it and
raises the selection latch; if that lookup nonetheless completes
successfully, its continuation emits no effect at all (in particular the
results sink is never invoked and nothing is displayed) and resets the
status icon to idle. -/
theorem selection_discards_inflight_result {ρ : Type} (w : World ρ) (r : Nat) (p : ρ)
    (results : List ρ) (h : w.session.currentSearchRequest = some r) :
    Effect.abortRequest r ∈ (selectAddress w p).2
  ∧ (selectAddress w p).1.session.isLocationSelected = true
  ∧ (completeRequest (selectAddress w p).1 r (Outcome.success results)).2 = []
  ∧ (completeRequest (selectAddress w p).1 r (Outcome.success results)).1.session.status
      = SearchStatus.idle := by
  have hL : (selectAddress w p).1.session.isLocationSelected = true := by
    obtain ⟨af1, af2, af3, af4, af5, af6⟩ :=
      abortRequestStep_frame { w with session.isLocationSelected := true }
    simp only [selectAddress]
    exact af6
  refine ⟨?_, hL, ?_, ?_⟩
  · simp [selectAddress, abortRequestStep, h]
  · simp [completeRequest, hL]
  · simp [completeRequest, hL]

/-- C6 witness: a concrete session with request 0 in flight. -/
theorem selection_discards_inflight_result_witness :
    inflightWorld.session.currentSearchRequest = some 0
  ∧ (Effect.abortRequest 0 ∈ (selectAddress inflightWorld 7).2
     ∧ (selectAddress inflightWorld 7).1.session.isLocationSelected = true
     ∧ (completeRequest (selectAddress inflightWorld 7).1 0
          (Outcome.success [1, 2, 3])).2 = []
     ∧ (completeRequest (selectAddress inflightWorld 7).1 0
          (Outcome.success [1, 2, 3])).1.session.status = SearchStatus.idle) :=
  ⟨rfl, selection_discards_inflight_result inflightWorld 0 7 [1, 2, 3] rfl⟩

/-- C7: an `AbortError` completion emits no effect (in particular nothing
reaches the diagnostic sink) and resets the icon to idle, while any other
failure emits exactly one diagnostic report and resets the icon to idle;
both handlers are total functions, so no failure is rethrown. -/
theorem cancellation_not_error {ρ : Type} (w : World ρ) (r : Nat) (msg : String) :
    (completeRequest w r Outcome.abortError).2 = []
  ∧ (completeRequest w r Outcome.abortError).1.session.status = SearchStatus.idle
  ∧ (completeRequest w r (Outcome.failure msg)).2 = [Effect.reportError msg]
  ∧ (completeRequest w r (Outcome.failure msg)).1.session.status = SearchStatus.idle :=
  ⟨rfl, rfl, rfl, rfl⟩

/-- C8: a keystroke whose trimmed value is shorter than 3 characters
creates no timer and issues no lookup, reports no error, clears the
suggestions, resets the icon to idle, leaves no timer handle, and (in any
invariant-satisfying state) leaves no live debounce timer at all. -/
theorem short_input_no_lookup {ρ : Type} (w : World ρ) (raw : String)
    (hlen : (String.mk (jsTrim raw.data)).length < 3) :
    (∀ e ∈ (handleInput w raw).2, isCreateEff e = false)
  ∧ (∀ msg, Effect.reportError msg ∉ (handleInput w raw).2)
  ∧ (handleInput w raw).1.session.suggestions = []
  ∧ (handleInput w raw).1.session.status = SearchStatus.idle
  ∧ (handleInput w raw).1.session.searchTimeout = none
  ∧ (SessionInv w → (handleInput w raw).1.liveTimers = []) := by
  have hlen2 : (jsTrim raw.data).length < 3 := hlen
  have heff : (handleInput w raw).2 =
      (clearTimerStep w).2 ++ (abortRequestStep (clearTimerStep w).1).2 := by
    simp [handleInput, hlen2]
  obtain ⟨cf1, cf2, cf3, cf4, cf5⟩ := clearTimerStep_frame w
  obtain ⟨af1, af2, af3, af4, af5, af6⟩ := abortRequestStep_frame (clearTimerStep w).1
  refine ⟨?_, ?_, ?_, ?_, ?_, ?_⟩
  · intro e he
    rw [heff] at he
    rcases List.mem_append.mp he with he | he
    · exact cancelEff_not_create e (clearTimerStep_effects w e he)
    · exact cancelEff_not_create e (abortRequestStep_effects _ e he)
  · intro msg hmem
    rw [heff] at hmem
    rcases List.mem_append.mp hmem with he | he
    · exact cancelEff_ne_report _ (clearTimerStep_effects w _ he) msg rfl
    · exact cancelEff_ne_report _ (abortRequestStep_effects _ _ he) msg rfl
  · simp [handleInput, hlen2]
  · simp [handleInput, hlen2]
  · simp [handleInput, hlen2, af4.trans cf5]
  · intro hI
    simp [handleInput, hlen2, (after_cancel_facts w hI).1]

/-- C8 witness: the two-character input `"ab"` on a fresh component. -/
theorem short_input_no_lookup_witness :
    (String.mk (jsTrim ("ab".data))).length < 3
  ∧ ((∀ e ∈ (handleInput (initWorld Nat) "ab").2, isCreateEff e = false)
     ∧ (∀ msg, Effect.reportError msg ∉ (handleInput (initWorld Nat) "ab").2)
     ∧ (handleInput (initWorld Nat) "ab").1.session.suggestions = []
     ∧ (handleInput (initWorld Nat) "ab").1.session.status = SearchStatus.idle
     ∧ (handleInput (initWorld Nat) "ab").1.session.searchTimeout = none
     ∧ (SessionInv (initWorld Nat) →
          (handleInput (initWorld Nat) "ab").1.liveTimers = [])) :=
  ⟨by decide, short_input_no_lookup (initWorld Nat) "ab" (by decide)⟩
